import Mathlib

/-!
Verification development for the VideoPainter inference driver
(`infer/inpaint.py`).  The Python source is shallowly embedded: frames are
rasters of 8-bit RGB pixels, masks are single-channel rasters, Python list
slicing is modelled explicitly, and fallible operations (IndexError,
ValueError, NameError) return `Except`.
-/

deriving instance DecidableEq for Except

namespace Inpaint

/-- An RGB pixel (three 8-bit channel values, modelled as `Nat`). -/
abbrev Pix := Nat × Nat × Nat

/-- A frame: an H×W raster of RGB pixels (`np.ndarray` of shape H×W×3 /
`PIL.Image` in RGB mode), modelled as rows of pixels. -/
abbrev Frame := List (List Pix)

/-- A single-channel mask raster (`PIL.Image` in L mode / 2-D `np.ndarray`). -/
abbrev MaskImg := List (List Nat)

/-- The runtime failures the embedded code can raise. -/
inductive GenError where
  /-- Python `IndexError` (e.g. `video[0]` on an empty list). -/
  | indexError
  /-- Python `ZeroDivisionError` (from `fps // down_sample_fps`). -/
  | zeroDivision
  /-- Python `ValueError: slice step cannot be zero` (from `video[::0]`). -/
  | sliceStepZero
  /-- The `ValueError` raised at line 485 of `inpaint.py`; carries the data of
  the message `video length is less than {frames}, len(video): {available}`. -/
  | insufficientFrames (requested available : Nat)
  /-- Python `NameError` for reading an unbound local variable. -/
  | nameError (n : String)
deriving DecidableEq

/-- `l[i]` for a Python list: `IndexError` when out of range. -/
def pyGet (l : List α) (i : Nat) : Except GenError α :=
  match l[i]? with
  | some a => .ok a
  | none => .error .indexError

/-- `l[i] = x` for a Python list: `IndexError` when out of range. -/
def pySet (l : List α) (i : Nat) (x : α) : Except GenError (List α) :=
  if i < l.length then .ok (l.set i x) else .error .indexError

/-- Normalisation of one Python slice endpoint against a list of length `n`:
negative endpoints count from the end, and the result is clamped to `[0, n]`. -/
def pySliceIdx (n : Nat) (i : Int) : Nat :=
  (max 0 (min (n : Int) (if i < 0 then i + n else i))).toNat

/-- Python `l[start:stop]` (step 1). -/
def pySlice (l : List α) (start stop : Int) : List α :=
  (l.take (pySliceIdx l.length stop)).drop (pySliceIdx l.length start)

/-- Auxiliary for `takeEvery`: `n` counts down to the next kept element. -/
def takeEveryAux (k : Nat) : Nat → List α → List α
  | _, [] => []
  | 0, a :: rest => a :: takeEveryAux k (k - 1) rest
  | n + 1, _ :: rest => takeEveryAux k n rest

/-- Python `l[::k]` for a positive step `k`: the elements at indices
`0, k, 2k, …`. -/
def takeEvery (k : Nat) (l : List α) : List α :=
  takeEveryAux k 0 l

/-- Reading a Python local variable that is bound only on some control-flow
paths: `NameError` when the binding did not happen. -/
def localVar (n : String) : Option α → Except GenError α
  | some a => .ok a
  | none => .error (.nameError n)

/-- A frame of the same shape as `f` with every pixel zero
(`np.zeros_like(np.array(f))`, converted to RGB). -/
def zerosLike (f : Frame) : Frame :=
  f.map (fun row => row.map (fun _ => ((0 : Nat), (0 : Nat), (0 : Nat))))

/-- A frame of the same shape as `f` with every pixel 255
(`np.ones_like(np.array(f)) * 255`, converted to RGB). -/
def fullWhiteLike (f : Frame) : Frame :=
  f.map (fun row => row.map (fun _ => ((255 : Nat), (255 : Nat), (255 : Nat))))

/-- Split a character list at every occurrence of `c` (Python `str.split`). -/
def splitOnChar (c : Char) : List Char → List (List Char)
  | [] => [[]]
  | a :: rest =>
    match splitOnChar c rest with
    | [] => [[a]]
    | g :: gs => if a = c then [] :: g :: gs else (a :: g) :: gs

/-- Join character-list groups with the separator `c`. -/
def joinWithChar (c : Char) : List (List Char) → List Char
  | [] => []
  | [g] => g
  | g :: gs => g ++ c :: joinWithChar c gs

/-- `os.path.splitext(f)[0]`: the file name with its last `.ext` removed. -/
def splitextRoot (f : List Char) : List Char :=
  let parts := splitOnChar '.' f
  if parts.length ≤ 1 then f else joinWithChar '.' parts.dropLast

/-- Value of a decimal digit string (`int(s)`; Python's `int` raises on
non-digit input, which the claims never exercise — non-digits yield 0 here). -/
def digitsVal (l : List Char) : Nat :=
  l.foldl (fun acc c => acc * 10 + (c.toNat - '0'.toNat)) 0

/-- The `sort_key` closure of `read_video_with_mask_from_frame` (line 141):
`int(os.path.splitext(os.path.basename(path))[0].split('_')[-1])`.
`os.path.join`/`os.path.basename` cancel on the plain file names modelled
here. -/
def sort_key (f : String) : Nat :=
  digitsVal ((splitOnChar '_' (splitextRoot f.data)).getLastD [])

/-- The file-name filter for frames (line 134):
`f.startswith("frame_") and f.endswith(".png")`. -/
def isFrameFileName (f : String) : Bool :=
  "frame_".data.isPrefixOf f.data && ".png".data.isSuffixOf f.data

/-- The file-name filter for masks (line 138):
`f.startswith("seg_mask_") and f.endswith(".png")`. -/
def isMaskFileName (f : String) : Bool :=
  "seg_mask_".data.isPrefixOf f.data && ".png".data.isSuffixOf f.data

/-- Stable insertion into a key-sorted list. -/
def insertByKey (key : α → Nat) (x : α) : List α → List α
  | [] => [x]
  | y :: ys => if key x ≤ key y then x :: y :: ys else y :: insertByKey key x ys

/-- Python `sorted(l, key=key)`: a stable sort by a numeric key. -/
def sortedByKey (key : α → Nat) : List α → List α
  | [] => []
  | x :: xs => insertByKey key x (sortedByKey key xs)

/-- One masked frame of `read_video_with_mask_from_frame` (lines 152-162):
`binary_mask = (mask == 255)`, then
`np.where(binary_mask_expanded, black_frame, frame_array)`. -/
def maskedFrame255 (frame : Frame) (mask : MaskImg) : Frame :=
  List.zipWith
    (fun frow mrow =>
      List.zipWith (fun pix m => if m = 255 then ((0 : Nat), (0 : Nat), (0 : Nat)) else pix) frow mrow)
    frame mask

/-- One binary-mask frame of `read_video_with_mask_from_frame` (lines 164-168):
`np.where(binary_mask, 0, 255)` under `mask_background`, else
`np.where(binary_mask, 255, 0)`, replicated to RGB by `convert("RGB")`. -/
def binaryMaskImage255 (mask_background : Bool) (mask : MaskImg) : Frame :=
  mask.map (fun mrow =>
    mrow.map (fun m =>
      let v : Nat :=
        if m = 255 then (if mask_background then 0 else 255)
        else (if mask_background then 255 else 0)
      (v, v, v)))

/-- One masked frame of `read_video_with_mask` (lines 99-109), where the
binary mask is `(frame_mask == mask_id)`. -/
def maskedFrameId (mask_id : Nat) (frame : Frame) (mask : MaskImg) : Frame :=
  List.zipWith
    (fun frow mrow =>
      List.zipWith (fun pix m => if m = mask_id then ((0 : Nat), (0 : Nat), (0 : Nat)) else pix) frow mrow)
    frame mask

/-- One binary-mask frame of `read_video_with_mask` (lines 111-115). -/
def binaryMaskImageId (mask_background : Bool) (mask_id : Nat) (mask : MaskImg) : Frame :=
  mask.map (fun mrow =>
    mrow.map (fun m =>
      let v : Nat :=
        if m = mask_id then (if mask_background then 0 else 255)
        else (if mask_background then 255 else 0)
      (v, v, v)))

/-- `read_video_with_mask` (lines 74-117).  `video_frames` stands for the
decoded `load_video(video_path)` result and `capFps` for the fps that
`cv2.VideoCapture` would report (both external I/O).  Returns
`(video, masked_video, binary_masks, fps)`. -/
def read_video_with_mask (video_frames : List Frame) (masks : List MaskImg)
    (mask_id : Nat) (skip_frames_start skip_frames_end : Int)
    (mask_background : Bool) (fps capFps : Nat) :
    List Frame × List Frame × List Frame × Nat :=
  let video := pySlice video_frames skip_frames_start skip_frames_end
  let mask := pySlice masks skip_frames_start skip_frames_end
  let fps := if fps = 0 then capFps else fps
  let pairs := List.zip video mask
  let masked_video := pairs.map (fun vm => maskedFrameId mask_id vm.1 vm.2)
  let binary_masks := pairs.map (fun vm => binaryMaskImageId mask_background mask_id vm.2)
  (video, masked_video, binary_masks, fps)

/-- `read_video_with_mask_from_frame` (lines 119-170).  `videoDir` and
`maskDir` are the directory listings: file names paired with the image that
`Image.open` yields for that file.  The function accepts
`skip_frames_start`/`skip_frames_end` but — exactly as the source body does —
never uses them.  Returns `(video, masked_video, binary_masks, fps)`. -/
def read_video_with_mask_from_frame (videoDir : List (String × Frame))
    (maskDir : List (String × MaskImg))
    (skip_frames_start skip_frames_end : Int) (mask_background : Bool) (fps : Nat) :
    List Frame × List Frame × List Frame × Nat :=
  let frame_entries := sortedByKey (fun p => sort_key p.1) (videoDir.filter (fun p => isFrameFileName p.1))
  let mask_entries := sortedByKey (fun p => sort_key p.1) (maskDir.filter (fun p => isMaskFileName p.1))
  let video := frame_entries.map Prod.snd
  let masks := mask_entries.map Prod.snd
  let pairs := List.zip video masks
  let masked_video := pairs.map (fun vm => maskedFrame255 vm.1 vm.2)
  let binary_masks := pairs.map (fun vm => binaryMaskImage255 mask_background vm.2)
  (video, masked_video, binary_masks, fps)

/-- The resampling stride of `generate_video` (lines 479-480):
`down_sample_fps = fps if down_sample_fps == 0 else down_sample_fps` followed
by `int(fps // down_sample_fps)` — floor division, with no minimum applied. -/
def resampleStride (fps down_sample_fps : Nat) : Nat :=
  fps / (if down_sample_fps = 0 then fps else down_sample_fps)

/-- The resample / truncate / minimum-length block of `generate_video`
(lines 477-485): slice all three sequences with step
`int(fps // down_sample_fps)`, truncate to `frames` unless `long_video`, and
raise when fewer than `frames` entries remain. -/
def resampleStage (video masked_video binary_masks : List α)
    (fps down_sample_fps frames : Nat) (long_video : Bool) :
    Except GenError (List α × List α × List α) :=
  let dsf := if down_sample_fps = 0 then fps else down_sample_fps
  if dsf = 0 then .error .zeroDivision
  else
    let stride := resampleStride fps down_sample_fps
    if stride = 0 then .error .sliceStepZero
    else
      let video := takeEvery stride video
      let masked_video := takeEvery stride masked_video
      let binary_masks := takeEvery stride binary_masks
      let s :=
        if long_video then (video, masked_video, binary_masks)
        else (video.take frames, masked_video.take frames, binary_masks.take frames)
      if s.1.length < frames then .error (.insufficientFrames frames s.1.length)
      else .ok s

/-- The image-inpainting substitution of `generate_video` (lines 403-466),
restricted to the bindings that feed the later pipeline: when an image
inpainting model is configured, `imgInp` is `some` of the frame the external
`FluxFillPipeline` returned, and the code runs
`gt_video_first_frame = video[0]; video[0] = image_inpainting;
masked_video[0] = image_inpainting`.  (The cv2 dilation applied only when
`dilate_size > 0` is external and outside the modelled configuration.)
Returns the new `video`, `masked_video` and the optional binding of the
Python local `gt_video_first_frame`. -/
def imgInpaintStage (video masked_video : List Frame) :
    Option Frame → Except GenError (List Frame × List Frame × Option Frame)
  | some image_inpainting => do
    let gt ← pyGet video 0
    let video ← pySet video 0 image_inpainting
    let masked_video ← pySet masked_video 0 image_inpainting
    .ok (video, masked_video, some gt)
  | none => .ok (video, masked_video, none)

/-- The first-frame ground-truth policy of `generate_video` (lines 487-492):
under `first_frame_gt`, save `binary_masks[0]` in `gt_mask_first_frame` and
overwrite index 0 with an all-255 frame (`mask_background`) or an all-zero
frame (otherwise).  Returns the new `binary_masks` and the optional binding
of the Python local `gt_mask_first_frame`. -/
def firstFramePolicyStage (binary_masks : List Frame)
    (first_frame_gt mask_background : Bool) :
    Except GenError (List Frame × Option Frame) :=
  if first_frame_gt then do
    let gt ← pyGet binary_masks 0
    let b ←
      pySet binary_masks 0 (if mask_background then fullWhiteLike gt else zerosLike gt)
    .ok (b, some gt)
  else .ok (binary_masks, none)

/-- The post-generation restore of `generate_video` (lines 514-515):
`binary_masks[0] = gt_mask_first_frame; video[0] = gt_video_first_frame`.
Both reads raise `NameError` when the corresponding local was never bound. -/
def restoreStage (video binary_masks : List Frame)
    (gt_mask_first_frame gt_video_first_frame : Option Frame) :
    Except GenError (List Frame × List Frame) := do
  let gm ← localVar "gt_mask_first_frame" gt_mask_first_frame
  let binary_masks ← pySet binary_masks 0 gm
  let gv ← localVar "gt_video_first_frame" gt_video_first_frame
  let video ← pySet video 0 gv
  .ok (video, binary_masks)

/-- What the `i2v_inpainting` branch of `generate_video` hands on after the
generative call: the inputs of the `pipe(...)` call and the sequences used
for the comparison video. -/
structure I2VResult where
  /-- `image = masked_video[0]` (line 493). -/
  modelImage : Frame
  /-- The `video=masked_video` argument of the `pipe(...)` call. -/
  modelMaskedVideo : List Frame
  /-- The `masks=binary_masks` argument of the `pipe(...)` call. -/
  modelMasks : List Frame
  /-- `video_generate` (line 513): the external pipeline's returned frames. -/
  generated : List Frame
  /-- `video` after the line-515 restore, used for `_visualize_video`. -/
  videoOut : List Frame
  /-- `binary_masks` after the line-514 restore, used for `_visualize_video`. -/
  masksOut : List Frame
  /-- `video[:len(video_generate)]` as passed to `_visualize_video` (line 516). -/
  visVideo : List Frame
  /-- `binary_masks[:len(video_generate)]` as passed to `_visualize_video`. -/
  visMasks : List Frame
deriving DecidableEq

/-- The `i2v_inpainting` tail of `generate_video` (lines 403-517) after the
loader returned `(video0, masked0, binary0, fps)`: image-inpainting
substitution, resampling/truncation, first-frame policy, the external
generative call (whose returned frames are the parameter `pipeOut`), and the
post-generation restore. -/
def generateVideoI2V (video0 masked0 binary0 : List Frame) (imgInp : Option Frame)
    (inpainting_frames down_sample_fps fps : Nat)
    (long_video first_frame_gt mask_background : Bool)
    (pipeOut : List Frame) : Except GenError I2VResult := do
  let (video1, masked1, gt_video_first_frame) ← imgInpaintStage video0 masked0 imgInp
  let (video2, masked2, binary2) ←
    resampleStage video1 masked1 binary0 fps down_sample_fps inpainting_frames long_video
  let (binary3, gt_mask_first_frame) ←
    firstFramePolicyStage binary2 first_frame_gt mask_background
  let image ← pyGet masked2 0
  let video_generate := pipeOut
  let (videoOut, masksOut) ←
    restoreStage video2 binary3 gt_mask_first_frame gt_video_first_frame
  .ok ⟨image, masked2, binary3, video_generate, videoOut, masksOut,
       videoOut.take video_generate.length, masksOut.take video_generate.length⟩

/-- `np.concatenate(tuple, axis=1)` on equal-height H×W×3 arrays: rows are
concatenated pairwise. -/
def npConcatAxis1 : List Frame → Frame
  | [] => []
  | f :: rest => rest.foldl (fun acc g => List.zipWith (fun r s => r ++ s) acc g) f

/-- A fallible `map` mirroring a Python `for` loop that appends to an output
list and can raise. -/
def mapExcept (g : α → Except GenError β) : List α → Except GenError (List β)
  | [] => .ok []
  | a :: rest => do
    let b ← g a
    let bs ← mapExcept g rest
    .ok (b :: bs)

/-- `concatenate_images_horizontally` (lines 51-72), `output_type="np"`:
`length = len(images_list[0])`; for each `i < length` the `i`-th members of
all input sequences are concatenated horizontally. -/
def concatenate_images_horizontally (images_list : List (List Frame)) :
    Except GenError (List Frame) := do
  let first ← pyGet images_list 0
  let length := first.length
  mapExcept
    (fun i => do
      let tmp ← mapExcept (fun item => pyGet item i) images_list
      .ok (npConcatAxis1 tmp))
    (List.range length)

/-- The `stride` argument handed to the generative pipeline at line 508:
`int(frames - overlap_frames)`. -/
def pipeStride (frames overlap_frames : Int) : Int :=
  frames - overlap_frames

/-- Modelled from the spec: the multi-clip window loop itself lives in the
external generative pipeline, not under `infer/`; per §4.4 window `k` of a
stride-`s` schedule starts at `k*s`. -/
def windowStart (stride : Int) (k : Nat) : Int :=
  (k : Int) * stride

/-- Modelled from the spec: window `k` covers the half-open index range
`[windowStart stride k, windowStart stride k + length)`. -/
def windowSet (stride length : Int) (k : Nat) : Finset Int :=
  Finset.Ico (windowStart stride k) (windowStart stride k + length)

/-- A frame has `H` rows of `W` pixels each. -/
def frameShape (H W : Nat) (f : Frame) : Prop :=
  f.length = H ∧ ∀ r ∈ f, r.length = W

instance (H W : Nat) (f : Frame) : Decidable (frameShape H W f) := by
  unfold frameShape; infer_instance

/-- The frame directory of the C7 scenario: files `frame_0.png..frame_4.png`
with arbitrary image contents, listed in canonical order. -/
def canonicalFrameDir (f : Fin 5 → Frame) : List (String × Frame) :=
  [("frame_0.png", f 0), ("frame_1.png", f 1), ("frame_2.png", f 2),
   ("frame_3.png", f 3), ("frame_4.png", f 4)]

/-- The mask directory of the C7 scenario: files
`seg_mask_0.png..seg_mask_4.png` with arbitrary contents, in canonical
order. -/
def canonicalMaskDir (m : Fin 5 → MaskImg) : List (String × MaskImg) :=
  [("seg_mask_0.png", m 0), ("seg_mask_1.png", m 1), ("seg_mask_2.png", m 2),
   ("seg_mask_3.png", m 3), ("seg_mask_4.png", m 4)]

/-- A 1×1 test frame whose single pixel has value `n` on every channel. -/
def cFrame (n : Nat) : Frame := [[(n, n, n)]]

/-- A 1×1 test mask raster with the single value `n`. -/
def cMask (n : Nat) : MaskImg := [[n]]

/-! ### Supporting lemmas -/

theorem takeEveryAux_getElem? (k : Nat) (hk : 1 ≤ k) :
    ∀ (l : List α) (n i : Nat), (takeEveryAux k n l)[i]? = l[n + i * k]? := by
  intro l
  induction l with
  | nil => intro n i; simp [takeEveryAux]
  | cons a rest ih =>
    intro n i
    cases n with
    | zero =>
      cases i with
      | zero => simp [takeEveryAux]
      | succ j =>
        have h1 : takeEveryAux k 0 (a :: rest) = a :: takeEveryAux k (k - 1) rest := rfl
        rw [h1, List.getElem?_cons_succ, ih (k - 1) j]
        have h2 : 0 + (j + 1) * k = ((k - 1) + j * k) + 1 := by
          have := hk; rw [Nat.add_mul, Nat.one_mul]; omega
        rw [h2, List.getElem?_cons_succ]
    | succ m =>
      have h1 : takeEveryAux k (m + 1) (a :: rest) = takeEveryAux k m rest := rfl
      rw [h1, ih m i]
      have h2 : m + 1 + i * k = (m + i * k) + 1 := by omega
      rw [h2, List.getElem?_cons_succ]

theorem takeEvery_getElem? (k : Nat) (hk : 1 ≤ k) (l : List α) (i : Nat) :
    (takeEvery k l)[i]? = l[i * k]? := by
  have := takeEveryAux_getElem? k hk l 0 i
  simpa [takeEvery] using this

theorem takeEveryAux_length_congr (k : Nat) :
    ∀ (l₁ : List α) (l₂ : List β), l₁.length = l₂.length →
      ∀ n, (takeEveryAux k n l₁).length = (takeEveryAux k n l₂).length := by
  intro l₁
  induction l₁ with
  | nil =>
    intro l₂ h n
    cases l₂ with
    | nil => simp [takeEveryAux]
    | cons b t => simp at h
  | cons a t ih =>
    intro l₂ h n
    cases l₂ with
    | nil => simp at h
    | cons b t₂ =>
      simp only [List.length_cons, Nat.add_right_cancel_iff] at h
      cases n with
      | zero => simp only [takeEveryAux, List.length_cons, ih t₂ h (k - 1)]
      | succ m => simpa only [takeEveryAux] using ih t₂ h m

theorem takeEvery_length_congr (k : Nat) (l₁ : List α) (l₂ : List β)
    (h : l₁.length = l₂.length) :
    (takeEvery k l₁).length = (takeEvery k l₂).length :=
  takeEveryAux_length_congr k l₁ l₂ h 0

theorem mapExcept_ok_map (g : α → Except GenError β) (h : α → β) :
    ∀ l : List α, (∀ a ∈ l, g a = .ok (h a)) → mapExcept g l = .ok (l.map h) := by
  intro l
  induction l with
  | nil => intro _; rfl
  | cons a t ih =>
    intro hall
    have ha := hall a (by simp)
    have ht := ih (fun x hx => hall x (by simp [hx]))
    simp only [mapExcept, ha, ht, List.map_cons, bind, Except.bind]

theorem insertByKey_perm (key : α → Nat) (x : α) :
    ∀ l : List α, (insertByKey key x l).Perm (x :: l) := by
  intro l
  induction l with
  | nil => exact List.Perm.refl _
  | cons y ys ih =>
    by_cases h : key x ≤ key y
    · simp only [insertByKey, if_pos h]
      exact List.Perm.refl _
    · simp only [insertByKey, if_neg h]
      exact (ih.cons y).trans (List.Perm.swap x y ys)

theorem sortedByKey_perm (key : α → Nat) :
    ∀ l : List α, (sortedByKey key l).Perm l := by
  intro l
  induction l with
  | nil => exact List.Perm.refl _
  | cons x xs ih =>
    simp only [sortedByKey]
    exact (insertByKey_perm key x _).trans (ih.cons x)

theorem insertByKey_pairwise (key : α → Nat) (x : α) :
    ∀ l : List α, l.Pairwise (fun a b => key a ≤ key b) →
      (insertByKey key x l).Pairwise (fun a b => key a ≤ key b) := by
  intro l
  induction l with
  | nil => intro _; simp [insertByKey]
  | cons y ys ih =>
    intro hp
    rw [List.pairwise_cons] at hp
    obtain ⟨hy, hys⟩ := hp
    by_cases h : key x ≤ key y
    · simp only [insertByKey, if_pos h]
      rw [List.pairwise_cons]
      refine ⟨?_, List.pairwise_cons.mpr ⟨hy, hys⟩⟩
      intro b hb
      rcases List.mem_cons.mp hb with rfl | hb'
      · exact h
      · exact le_trans h (hy b hb')
    · simp only [insertByKey, if_neg h]
      rw [List.pairwise_cons]
      refine ⟨?_, ih hys⟩
      intro b hb
      have hb' : b ∈ x :: ys := (insertByKey_perm key x ys).mem_iff.mp hb
      rcases List.mem_cons.mp hb' with rfl | hb''
      · omega
      · exact hy b hb''

theorem sortedByKey_pairwise (key : α → Nat) :
    ∀ l : List α, (sortedByKey key l).Pairwise (fun a b => key a ≤ key b) := by
  intro l
  induction l with
  | nil => simp [sortedByKey]
  | cons x xs ih =>
    simp only [sortedByKey]
    exact insertByKey_pairwise key x _ ih

/-- A permutation between two key-sorted lists with pairwise-distinct keys is
an equality.  This is what makes `sorted(..., key=sort_key)` independent of
the directory-listing order. -/
theorem eq_of_perm_of_pairwiseKey (key : α → Nat) :
    ∀ (l₁ l₂ : List α), l₁.Perm l₂ →
      l₁.Pairwise (fun a b => key a ≤ key b) →
      l₂.Pairwise (fun a b => key a ≤ key b) →
      (l₂.map key).Nodup → l₁ = l₂ := by
  intro l₁
  induction l₁ with
  | nil =>
    intro l₂ hp _ _ _
    exact (hp.symm.eq_nil).symm
  | cons a t ih =>
    intro l₂ hp h₁ h₂ hnd
    cases l₂ with
    | nil => exact absurd hp.eq_nil (by simp)
    | cons b t₂ =>
      by_cases hab : a = b
      · subst hab
        have ht : t.Perm t₂ := hp.cons_inv
        have hrec := ih t₂ ht (List.pairwise_cons.mp h₁).2 (List.pairwise_cons.mp h₂).2
          (by rw [List.map_cons] at hnd; exact (List.nodup_cons.mp hnd).2)
        rw [hrec]
      · have ha2 : a ∈ b :: t₂ := hp.mem_iff.mp (by simp)
        have hb1 : b ∈ a :: t := hp.mem_iff.mpr (by simp)
        rcases List.mem_cons.mp ha2 with h | ha2'
        · exact absurd h hab
        · rcases List.mem_cons.mp hb1 with h | hb1'
          · exact absurd h.symm hab
          · have hba : key b ≤ key a := (List.pairwise_cons.mp h₂).1 a ha2'
            have hab' : key a ≤ key b := (List.pairwise_cons.mp h₁).1 b hb1'
            have hk : key a = key b := le_antisymm hab' hba
            have hmem : key a ∈ t₂.map key := List.mem_map.mpr ⟨a, ha2', rfl⟩
            rw [List.map_cons] at hnd
            have hnotin := (List.nodup_cons.mp hnd).1
            rw [hk] at hmem
            exact absurd hmem hnotin

theorem zipWithAppend_rows :
    ∀ (f g : Frame) (W1 W2 : Nat),
      (∀ r ∈ f, r.length = W1) → (∀ r ∈ g, r.length = W2) →
      ∀ r ∈ List.zipWith (fun r s => r ++ s) f g, r.length = W1 + W2 := by
  intro f
  induction f with
  | nil => intro g W1 W2 _ _ r hr; simp at hr
  | cons x f' ih =>
    intro g W1 W2 hf hg r hr
    cases g with
    | nil => simp at hr
    | cons y g' =>
      simp only [List.zipWith_cons_cons] at hr
      rcases List.mem_cons.mp hr with rfl | hr'
      · rw [List.length_append, hf x (by simp), hg y (by simp)]
      · exact ih g' W1 W2 (fun s hs => hf s (by simp [hs])) (fun s hs => hg s (by simp [hs])) r hr'

theorem pyGet_ok_of_lt {l : List α} {i : Nat} (h : i < l.length) (d : α) :
    pyGet l i = .ok (l.getD i d) := by
  unfold pyGet
  rw [List.getElem?_eq_getElem h]
  rw [List.getD_eq_getElem?_getD, List.getElem?_eq_getElem h]
  rfl

theorem pyGet_ok_inv {l : List α} {i : Nat} {a : α} (h : pyGet l i = .ok a) :
    l[i]? = some a := by
  unfold pyGet at h
  cases hc : l[i]? with
  | none => rw [hc] at h; exact absurd h (by simp)
  | some b => rw [hc] at h; cases h; rfl

theorem pySet_ok_inv {l : List α} {i : Nat} {x : α} {l' : List α}
    (h : pySet l i x = .ok l') : i < l.length ∧ l' = l.set i x := by
  unfold pySet at h
  split at h
  · cases h; exact ⟨by assumption, rfl⟩
  · exact absurd h (by simp)

theorem resampleStage_ok_inv {v m b : List α} {fps dsf fr : Nat} {lv : Bool}
    {v' m' b' : List α}
    (h : resampleStage v m b fps dsf fr lv = .ok (v', m', b')) :
    1 ≤ resampleStride fps dsf ∧
    v' = (if lv then takeEvery (resampleStride fps dsf) v
          else (takeEvery (resampleStride fps dsf) v).take fr) ∧
    m' = (if lv then takeEvery (resampleStride fps dsf) m
          else (takeEvery (resampleStride fps dsf) m).take fr) ∧
    b' = (if lv then takeEvery (resampleStride fps dsf) b
          else (takeEvery (resampleStride fps dsf) b).take fr) ∧
    fr ≤ v'.length := by
  simp only [resampleStage] at h
  by_cases hD : (if dsf = 0 then fps else dsf) = 0
  · rw [if_pos hD] at h
    exact absurd h (by simp)
  · rw [if_neg hD] at h
    by_cases hs : resampleStride fps dsf = 0
    · rw [if_pos hs] at h
      exact absurd h (by simp)
    · rw [if_neg hs] at h
      cases lv with
      | true =>
        simp only [eq_self_iff_true, if_true] at h ⊢
        by_cases hlen : (takeEvery (resampleStride fps dsf) v).length < fr
        · rw [if_pos hlen] at h
          exact absurd h (by simp)
        · rw [if_neg hlen] at h
          simp only [Except.ok.injEq, Prod.mk.injEq] at h
          obtain ⟨h1, h2, h3⟩ := h
          refine ⟨by omega, h1.symm, h2.symm, h3.symm, ?_⟩
          rw [← h1]
          omega
      | false =>
        simp only [Bool.false_eq_true, if_false] at h ⊢
        by_cases hlen : (List.take fr (takeEvery (resampleStride fps dsf) v)).length < fr
        · rw [if_pos hlen] at h
          exact absurd h (by simp)
        · rw [if_neg hlen] at h
          simp only [Except.ok.injEq, Prod.mk.injEq] at h
          obtain ⟨h1, h2, h3⟩ := h
          refine ⟨by omega, h1.symm, h2.symm, h3.symm, ?_⟩
          rw [← h1]
          omega

theorem resampleStage_ok_lengths {v m b : List α} {fps dsf fr : Nat} {lv : Bool}
    {v' m' b' : List α}
    (hvm : v.length = m.length) (hmb : m.length = b.length)
    (h : resampleStage v m b fps dsf fr lv = .ok (v', m', b')) :
    v'.length = m'.length ∧ m'.length = b'.length := by
  obtain ⟨_, hv, hm, hb, _⟩ := resampleStage_ok_inv h
  subst hv hm hb
  cases lv with
  | true =>
    simp only [eq_self_iff_true, if_true]
    constructor
    · exact takeEvery_length_congr _ v m hvm
    · exact takeEvery_length_congr _ m b hmb
  | false =>
    simp only [Bool.false_eq_true, if_false, List.length_take]
    constructor
    · rw [takeEvery_length_congr _ v m hvm]
    · rw [takeEvery_length_congr _ m b hmb]

theorem firstFramePolicyStage_ok_inv {bm : List Frame} {ffg mbb : Bool}
    {bm' : List Frame} {g : Option Frame}
    (h : firstFramePolicyStage bm ffg mbb = .ok (bm', g)) :
    bm'.length = bm.length ∧
    (ffg = false → bm' = bm ∧ g = none) ∧
    (ffg = true → ∃ b0, bm[0]? = some b0 ∧ g = some b0 ∧
       bm' = bm.set 0 (if mbb then fullWhiteLike b0 else zerosLike b0)) := by
  cases ffg with
  | false =>
    simp only [firstFramePolicyStage, Bool.false_eq_true, if_false, Except.ok.injEq] at h
    obtain ⟨h1, h2⟩ := (Prod.mk.injEq _ _ _ _).mp h
    subst h1; subst h2
    exact ⟨rfl, fun _ => ⟨rfl, rfl⟩, fun hc => absurd hc (by simp)⟩
  | true =>
    simp only [firstFramePolicyStage, if_true] at h
    cases hget : pyGet bm 0 with
    | error e => rw [hget] at h; exact absurd h (by simp [bind, Except.bind])
    | ok b0 =>
      rw [hget] at h
      simp only [bind, Except.bind] at h
      cases hset : pySet bm 0 (if mbb then fullWhiteLike b0 else zerosLike b0) with
      | error e => rw [hset] at h; exact absurd h (by simp)
      | ok bset =>
        rw [hset] at h
        simp only [Except.ok.injEq] at h
        obtain ⟨h1, h2⟩ := (Prod.mk.injEq _ _ _ _).mp h
        obtain ⟨_, hbset⟩ := pySet_ok_inv hset
        subst h1
        refine ⟨?_, fun hc => absurd hc (by simp), fun _ => ⟨b0, pyGet_ok_inv hget, h2.symm, hbset⟩⟩
        rw [hbset, List.length_set]

/-- Lengths of the three loader outputs: the frame sequence keeps the full
frame-file count, while `zip` truncates the masked and binary sequences to
the minimum of the two counts. -/
theorem loader_output_lengths (videoDir : List (String × Frame))
    (maskDir : List (String × MaskImg)) (s e : Int) (mb : Bool) (fps : Nat) :
    (read_video_with_mask_from_frame videoDir maskDir s e mb fps).1.length
      = (videoDir.filter (fun p => isFrameFileName p.1)).length ∧
    (read_video_with_mask_from_frame videoDir maskDir s e mb fps).2.1.length
      = min (videoDir.filter (fun p => isFrameFileName p.1)).length
            (maskDir.filter (fun p => isMaskFileName p.1)).length ∧
    (read_video_with_mask_from_frame videoDir maskDir s e mb fps).2.2.1.length
      = min (videoDir.filter (fun p => isFrameFileName p.1)).length
            (maskDir.filter (fun p => isMaskFileName p.1)).length := by
  have hv : ((sortedByKey (fun p => sort_key p.1) (videoDir.filter (fun p => isFrameFileName p.1))).map Prod.snd).length
      = (videoDir.filter (fun p => isFrameFileName p.1)).length := by
    rw [List.length_map]
    exact (sortedByKey_perm _ _).length_eq
  have hm : ((sortedByKey (fun p => sort_key p.1) (maskDir.filter (fun p => isMaskFileName p.1))).map Prod.snd).length
      = (maskDir.filter (fun p => isMaskFileName p.1)).length := by
    rw [List.length_map]
    exact (sortedByKey_perm _ _).length_eq
  refine ⟨hv, ?_, ?_⟩ <;>
    simp only [read_video_with_mask_from_frame, List.length_map, List.length_zip] <;>
    rw [← hv, ← hm] <;>
    simp [List.length_map]

/-! ### Claim theorems -/

/-- C3: for a 16-frame source at fps 24 with `down_sample_fps = 8`, the stride
is 3 and the resampled clip has 6 frames; `frames = 6` passes the
minimum-length check while `frames = 7` raises the insufficient-frames error
reporting that only 6 frames are available. -/
theorem resample_scenario_16_frames :
    resampleStride 24 8 = 3 ∧
    resampleStage (List.range 16) (List.range 16) (List.range 16) 24 8 6 false
      = .ok ([0, 3, 6, 9, 12, 15], [0, 3, 6, 9, 12, 15], [0, 3, 6, 9, 12, 15]) ∧
    resampleStage (List.range 16) (List.range 16) (List.range 16) 24 8 7 false
      = .error (.insufficientFrames 7 6) := by
  exact ⟨rfl, by decide, by decide⟩

/-- C5 (code bug): the claim — and the loader's own docstring — say both
loaders honor `skip_frames_start`/`skip_frames_end`, but
`read_video_with_mask_from_frame` never uses them: with bounds `2, 4` over a
5-frame directory it still returns all five frames, identically to bounds
`0, 5`, while `read_video_with_mask` does slice `[2:4]` of its source. -/
theorem frame_loader_ignores_skip_bounds :
    (read_video_with_mask_from_frame (canonicalFrameDir (fun i => cFrame i.val))
      (canonicalMaskDir (fun i => cMask i.val)) 2 4 false 8).1.length = 5 ∧
    read_video_with_mask_from_frame (canonicalFrameDir (fun i => cFrame i.val))
      (canonicalMaskDir (fun i => cMask i.val)) 2 4 false 8
      = read_video_with_mask_from_frame (canonicalFrameDir (fun i => cFrame i.val))
        (canonicalMaskDir (fun i => cMask i.val)) 0 5 false 8 ∧
    (read_video_with_mask_from_frame (canonicalFrameDir (fun i => cFrame i.val))
      (canonicalMaskDir (fun i => cMask i.val)) 2 4 false 8).1
      = [cFrame 0, cFrame 1, cFrame 2, cFrame 3, cFrame 4] ∧
    (read_video_with_mask [cFrame 0, cFrame 1, cFrame 2, cFrame 3, cFrame 4]
      [cMask 0, cMask 1, cMask 2, cMask 3, cMask 4] 7 2 4 false 24 0).1
      = [cFrame 2, cFrame 3] := by
  exact ⟨by decide, by rfl, by decide, by rfl⟩

/-- C6 counterexample: a frame directory with two frames and one mask.  The
claim predicts an alignment failure; instead the loader returns a clip — the
source has no alignment check at all, `zip` simply truncates the pairing — and
the masked/binary sequences are silently cut to length 1. -/
theorem loader_no_alignment_error_counterexample :
    read_video_with_mask_from_frame
      [("frame_0.png", cFrame 0), ("frame_1.png", cFrame 1)]
      [("seg_mask_0.png", cMask 0)] 0 (-1) false 8
      = ([cFrame 0, cFrame 1],
         [maskedFrame255 (cFrame 0) (cMask 0)],
         [binaryMaskImage255 false (cMask 0)], 8) ∧
    (read_video_with_mask_from_frame
      [("frame_0.png", cFrame 0), ("frame_1.png", cFrame 1)]
      [("seg_mask_0.png", cMask 0)] 0 (-1) false 8).1.length = 2 ∧
    (read_video_with_mask_from_frame
      [("frame_0.png", cFrame 0), ("frame_1.png", cFrame 1)]
      [("seg_mask_0.png", cMask 0)] 0 (-1) false 8).2.1.length = 1 := by
  exact ⟨by rfl, by decide, by decide⟩

/-- C6 (amended): on mismatched counts the loader does not fail; it returns a
clip whose frame sequence keeps the full frame-file count while the
masked-frame and binary-mask sequences are truncated to the minimum of the
two counts. -/
theorem loader_truncates_pairing_to_min (videoDir : List (String × Frame))
    (maskDir : List (String × MaskImg)) (s e : Int) (mb : Bool) (fps : Nat) :
    (read_video_with_mask_from_frame videoDir maskDir s e mb fps).1.length
      = (videoDir.filter (fun p => isFrameFileName p.1)).length ∧
    (read_video_with_mask_from_frame videoDir maskDir s e mb fps).2.1.length
      = min (videoDir.filter (fun p => isFrameFileName p.1)).length
            (maskDir.filter (fun p => isMaskFileName p.1)).length ∧
    (read_video_with_mask_from_frame videoDir maskDir s e mb fps).2.2.1.length
      = min (videoDir.filter (fun p => isFrameFileName p.1)).length
            (maskDir.filter (fun p => isMaskFileName p.1)).length := by
  exact loader_output_lengths videoDir maskDir s e mb fps

/-- C1 counterexample: a source whose frame count (3) and mask count (2)
differ.  The claim asserts the three loader outputs still have equal length;
in fact the frame sequence keeps length 3 while the masked and binary
sequences have length 2. -/
theorem loader_alignment_counterexample :
    ((read_video_with_mask_from_frame
        [("frame_0.png", cFrame 0), ("frame_1.png", cFrame 1), ("frame_2.png", cFrame 2)]
        [("seg_mask_0.png", cMask 0), ("seg_mask_1.png", cMask 1)] 0 (-1) false 8).1.length,
     (read_video_with_mask_from_frame
        [("frame_0.png", cFrame 0), ("frame_1.png", cFrame 1), ("frame_2.png", cFrame 2)]
        [("seg_mask_0.png", cMask 0), ("seg_mask_1.png", cMask 1)] 0 (-1) false 8).2.1.length,
     (read_video_with_mask_from_frame
        [("frame_0.png", cFrame 0), ("frame_1.png", cFrame 1), ("frame_2.png", cFrame 2)]
        [("seg_mask_0.png", cMask 0), ("seg_mask_1.png", cMask 1)] 0 (-1) false 8).2.2.1.length)
      = (3, 2, 2) ∧
    (read_video_with_mask_from_frame
        [("frame_0.png", cFrame 0), ("frame_1.png", cFrame 1), ("frame_2.png", cFrame 2)]
        [("seg_mask_0.png", cMask 0), ("seg_mask_1.png", cMask 1)] 0 (-1) false 8).1.length
      ≠ (read_video_with_mask_from_frame
        [("frame_0.png", cFrame 0), ("frame_1.png", cFrame 1), ("frame_2.png", cFrame 2)]
        [("seg_mask_0.png", cMask 0), ("seg_mask_1.png", cMask 1)] 0 (-1) false 8).2.1.length := by
  exact ⟨by decide, by decide⟩

/-- C2 counterexample: source fps 8 with requested down-sample fps 16.  The
claim says the stride is clamped to a minimum of 1; in fact
`int(fps // down_sample_fps)` is 0 and the `[::0]` slice raises
`ValueError: slice step cannot be zero` instead of resampling. -/
theorem stride_not_clamped_counterexample :
    resampleStride 8 16 = 0 ∧
    resampleStage [0, 1] [0, 1] [0, 1] 8 16 1 false = .error .sliceStepZero := by
  exact ⟨rfl, by decide⟩

/-- C1 (amended): the three sequences have equal length after every stage for
every source whose (filtered) frame-file count equals its mask-file count;
the Resampler and the First-Frame Policy preserve equal lengths
unconditionally.  (When the counts differ the Loader already breaks the
invariant — see the counterexample.) -/
theorem alignment_holds_on_equal_counts
    (videoDir : List (String × Frame)) (maskDir : List (String × MaskImg))
    (s e : Int) (mb : Bool) (fps : Nat)
    (hcount : (videoDir.filter (fun p => isFrameFileName p.1)).length
            = (maskDir.filter (fun p => isMaskFileName p.1)).length) :
    ((read_video_with_mask_from_frame videoDir maskDir s e mb fps).1.length
       = (read_video_with_mask_from_frame videoDir maskDir s e mb fps).2.1.length
     ∧ (read_video_with_mask_from_frame videoDir maskDir s e mb fps).2.1.length
       = (read_video_with_mask_from_frame videoDir maskDir s e mb fps).2.2.1.length)
    ∧ (∀ (v m b v' m' b' : List Frame) (f d fr : Nat) (lv : Bool),
        v.length = m.length → m.length = b.length →
        resampleStage v m b f d fr lv = .ok (v', m', b') →
        v'.length = m'.length ∧ m'.length = b'.length)
    ∧ (∀ (bm bm' : List Frame) (g : Option Frame) (ffg mbb : Bool),
        firstFramePolicyStage bm ffg mbb = .ok (bm', g) → bm'.length = bm.length) := by
  obtain ⟨h1, h2, h3⟩ := loader_output_lengths videoDir maskDir s e mb fps
  refine ⟨⟨?_, ?_⟩, ?_, ?_⟩
  · rw [h1, h2, ← hcount, Nat.min_self]
  · rw [h2, h3]
  · intro v m b v' m' b' f d fr lv hvm hmb hok
    exact resampleStage_ok_lengths hvm hmb hok
  · intro bm bm' g ffg mbb hok
    exact (firstFramePolicyStage_ok_inv hok).1

/-- C1 witness: the amended claim at a concrete one-frame, one-mask source. -/
theorem alignment_holds_on_equal_counts_witness :
    ((read_video_with_mask_from_frame [("frame_0.png", cFrame 0)]
        [("seg_mask_0.png", cMask 0)] 0 (-1) false 8).1.length
       = (read_video_with_mask_from_frame [("frame_0.png", cFrame 0)]
        [("seg_mask_0.png", cMask 0)] 0 (-1) false 8).2.1.length
     ∧ (read_video_with_mask_from_frame [("frame_0.png", cFrame 0)]
        [("seg_mask_0.png", cMask 0)] 0 (-1) false 8).2.1.length
       = (read_video_with_mask_from_frame [("frame_0.png", cFrame 0)]
        [("seg_mask_0.png", cMask 0)] 0 (-1) false 8).2.2.1.length) :=
  (alignment_holds_on_equal_counts [("frame_0.png", cFrame 0)]
    [("seg_mask_0.png", cMask 0)] 0 (-1) false 8 (by decide)).1

/-- C2 (amended): the stride is `floor(fps / down_sample_fps)` with no
minimum: whenever `0 < down_sample_fps ≤ fps` the stride is at least 1 and
resampling takes every stride-th index from all three sequences; for
`down_sample_fps > fps` the stride is 0 and the slice raises instead (see the
counterexample). -/
theorem stride_floor_no_clamp {α : Type} (fps dsf : Nat) (v m b : List α)
    (h1 : 0 < dsf) (h2 : dsf ≤ fps) :
    resampleStride fps dsf = fps / dsf ∧
    1 ≤ resampleStride fps dsf ∧
    resampleStage v m b fps dsf 0 true
      = .ok (takeEvery (resampleStride fps dsf) v, takeEvery (resampleStride fps dsf) m,
             takeEvery (resampleStride fps dsf) b) ∧
    (∀ i, (takeEvery (resampleStride fps dsf) v)[i]? = v[i * resampleStride fps dsf]?) ∧
    (∀ i, (takeEvery (resampleStride fps dsf) m)[i]? = m[i * resampleStride fps dsf]?) ∧
    (∀ i, (takeEvery (resampleStride fps dsf) b)[i]? = b[i * resampleStride fps dsf]?) := by
  have hdsf : ¬ dsf = 0 := by omega
  have hstride : resampleStride fps dsf = fps / dsf := by
    simp [resampleStride, hdsf]
  have hpos : 1 ≤ resampleStride fps dsf := by
    rw [hstride]; exact Nat.div_pos h2 h1
  refine ⟨hstride, hpos, ?_, ?_, ?_, ?_⟩
  · simp only [resampleStage]
    rw [if_neg hdsf, if_neg hdsf, if_neg (by omega : ¬ resampleStride fps dsf = 0)]
    simp
  · intro i; rw [takeEvery_getElem? _ hpos v i]
  · intro i; rw [takeEvery_getElem? _ hpos m i]
  · intro i; rw [takeEvery_getElem? _ hpos b i]

/-- C2 witness: the amended claim at fps 24, down-sample fps 8, on a 16-frame
sequence, sampling index 2 of the resampled sequence. -/
theorem stride_floor_no_clamp_witness :
    resampleStage (List.range 16) (List.range 16) (List.range 16) 24 8 0 true
      = .ok (takeEvery (resampleStride 24 8) (List.range 16),
             takeEvery (resampleStride 24 8) (List.range 16),
             takeEvery (resampleStride 24 8) (List.range 16)) ∧
    (takeEvery (resampleStride 24 8) (List.range 16))[2]?
      = (List.range 16)[2 * resampleStride 24 8]? :=
  ⟨(stride_floor_no_clamp 24 8 (List.range 16) (List.range 16) (List.range 16)
      (by decide) (by decide)).2.2.1,
   (stride_floor_no_clamp 24 8 (List.range 16) (List.range 16) (List.range 16)
      (by decide) (by decide)).2.2.2.1 2⟩

/-- C8: the stride handed to the generative pipeline is
`frames - overlap_frames`, so consecutive windows of length `L` start `L - o`
apart and share exactly `o` indices (for `0 ≤ o ≤ L`). -/
theorem window_stride_and_overlap (L o : Int) (k : Nat) (h0 : 0 ≤ o) (hoL : o ≤ L) :
    pipeStride L o = L - o ∧
    windowStart (pipeStride L o) (k + 1) = windowStart (pipeStride L o) k + (L - o) ∧
    (windowSet (pipeStride L o) L (k + 1) ∩ windowSet (pipeStride L o) L k).card = o.toNat := by
  refine ⟨rfl, ?_, ?_⟩
  · simp only [windowStart, pipeStride]
    push_cast
    ring
  · simp only [windowSet, windowStart, pipeStride]
    have e1 : ((k + 1 : Nat) : Int) * (L - o) = (k : Int) * (L - o) + (L - o) := by
      push_cast; ring
    rw [e1, Finset.Ico_inter_Ico]
    have h1 : ((k : Int) * (L - o) + (L - o)) ⊔ ((k : Int) * (L - o)) = (k : Int) * (L - o) + (L - o) := by
      rw [sup_eq_left]; omega
    have h2 : ((k : Int) * (L - o) + (L - o) + L) ⊓ ((k : Int) * (L - o) + L) = (k : Int) * (L - o) + L := by
      rw [inf_eq_right]; omega
    rw [h1, h2, Int.card_Ico]
    congr 1
    omega

/-- C8 witness: clip length 3, overlap 1, first window pair. -/
theorem window_stride_and_overlap_witness :
    pipeStride 3 1 = 3 - 1 ∧
    (windowSet (pipeStride 3 1) 3 1 ∩ windowSet (pipeStride 3 1) 3 0).card = (1 : Int).toNat :=
  ⟨(window_stride_and_overlap 3 1 0 (by decide) (by decide)).1,
   (window_stride_and_overlap 3 1 0 (by decide) (by decide)).2.2⟩

theorem npConcatAxis1_four (w x y z : Frame) :
    npConcatAxis1 [w, x, y, z]
      = List.zipWith (fun r s => r ++ s)
          (List.zipWith (fun r s => r ++ s) (List.zipWith (fun r s => r ++ s) w x) y) z := rfl

theorem npConcat4_shape (w x y z : Frame) (H W : Nat)
    (hw : frameShape H W w) (hx : frameShape H W x) (hy : frameShape H W y)
    (hz : frameShape H W z) :
    frameShape H (4 * W) (npConcatAxis1 [w, x, y, z]) := by
  rw [npConcatAxis1_four]
  constructor
  · simp [List.length_zipWith, hw.1, hx.1, hy.1, hz.1]
  · have h1 := zipWithAppend_rows w x W W hw.2 hx.2
    have h2 := zipWithAppend_rows _ y (W + W) W h1 hy.2
    have h3 := zipWithAppend_rows _ z (W + W + W) W h2 hz.2
    intro r hr
    have := h3 r hr
    omega

theorem getD_shape {H W : Nat} (l : List Frame) (i : Nat) (h : i < l.length)
    (hall : ∀ fr ∈ l, frameShape H W fr) : frameShape H W (l.getD i []) := by
  have he : l.getD i [] = l[i] := by
    rw [List.getD_eq_getElem?_getD, List.getElem?_eq_getElem h]
    rfl
  rw [he]
  exact hall _ (List.getElem_mem h)

/-- C9: for four index-aligned equal-length sequences of H×W frames, the
compositor returns one frame per index — the horizontal concatenation, left
to right, of the four input frames at that index — each of height `H` and
width `4*W`. -/
theorem compositor_shape (a b c d : List Frame) (L H W : Nat)
    (hal : a.length = L) (hbl : b.length = L) (hcl : c.length = L) (hdl : d.length = L)
    (ha : ∀ fr ∈ a, frameShape H W fr) (hb : ∀ fr ∈ b, frameShape H W fr)
    (hc : ∀ fr ∈ c, frameShape H W fr) (hd : ∀ fr ∈ d, frameShape H W fr) :
    concatenate_images_horizontally [a, b, c, d]
      = .ok ((List.range L).map (fun i =>
          npConcatAxis1 [a.getD i [], b.getD i [], c.getD i [], d.getD i []])) ∧
    ((List.range L).map (fun i =>
        npConcatAxis1 [a.getD i [], b.getD i [], c.getD i [], d.getD i []])).length = L ∧
    ∀ fr ∈ (List.range L).map (fun i =>
        npConcatAxis1 [a.getD i [], b.getD i [], c.getD i [], d.getD i []]),
      frameShape H (4 * W) fr := by
  refine ⟨?_, by simp, ?_⟩
  · have hget : pyGet [a, b, c, d] 0 = .ok a := rfl
    simp only [concatenate_images_horizontally, hget, bind, Except.bind, hal]
    apply mapExcept_ok_map
    intro i hi
    have hiL : i < L := List.mem_range.mp hi
    have hinner : mapExcept (fun item => pyGet item i) [a, b, c, d]
        = .ok [a.getD i [], b.getD i [], c.getD i [], d.getD i []] := by
      have := mapExcept_ok_map (fun item => pyGet item i) (fun item => item.getD i [])
        [a, b, c, d] ?_
      · simpa using this
      · intro item hit
        have hit' : item = a ∨ item = b ∨ item = c ∨ item = d := by simpa using hit
        have : item.length = L := by
          rcases hit' with rfl | rfl | rfl | rfl
          · exact hal
          · exact hbl
          · exact hcl
          · exact hdl
        exact pyGet_ok_of_lt (by omega) []
    simp only [bind, Except.bind, hinner]
  · intro fr hfr
    obtain ⟨i, hi, rfl⟩ := List.mem_map.mp hfr
    have hiL : i < L := List.mem_range.mp hi
    exact npConcat4_shape _ _ _ _ H W
      (getD_shape a i (by omega) ha) (getD_shape b i (by omega) hb)
      (getD_shape c i (by omega) hc) (getD_shape d i (by omega) hd)

/-- C9 witness: four singleton 1×1 sequences. -/
theorem compositor_shape_witness :
    concatenate_images_horizontally [[cFrame 1], [cFrame 2], [cFrame 3], [cFrame 4]]
      = .ok ((List.range 1).map (fun i =>
          npConcatAxis1 [[cFrame 1].getD i [], [cFrame 2].getD i [],
                         [cFrame 3].getD i [], [cFrame 4].getD i []])) ∧
    ((List.range 1).map (fun i =>
        npConcatAxis1 [[cFrame 1].getD i [], [cFrame 2].getD i [],
                       [cFrame 3].getD i [], [cFrame 4].getD i []])).length = 1 :=
  ⟨(compositor_shape [cFrame 1] [cFrame 2] [cFrame 3] [cFrame 4] 1 1 1
      rfl rfl rfl rfl (by decide) (by decide) (by decide) (by decide)).1,
   (compositor_shape [cFrame 1] [cFrame 2] [cFrame 3] [cFrame 4] 1 1 1
      rfl rfl rfl rfl (by decide) (by decide) (by decide) (by decide)).2.1⟩

/-- C7: the frame-directory loader pairs frame files with mask files by the
integer suffix in each file name, sorting both sets by that integer, so any
directory-listing order of `frame_0.png..frame_4.png` and
`seg_mask_0.png..seg_mask_4.png` yields the same 5-length clip in which index
`i` holds `frame_i` paired with `seg_mask_i`. -/
theorem loader_pairs_by_numeric_suffix
    (f : Fin 5 → Frame) (m : Fin 5 → MaskImg)
    (fl : List (String × Frame)) (ml : List (String × MaskImg))
    (hf : fl.Perm (canonicalFrameDir f)) (hm : ml.Perm (canonicalMaskDir m))
    (s e : Int) (mb : Bool) (fps : Nat) :
    read_video_with_mask_from_frame fl ml s e mb fps
      = ([f 0, f 1, f 2, f 3, f 4],
         [maskedFrame255 (f 0) (m 0), maskedFrame255 (f 1) (m 1),
          maskedFrame255 (f 2) (m 2), maskedFrame255 (f 3) (m 3),
          maskedFrame255 (f 4) (m 4)],
         [binaryMaskImage255 mb (m 0), binaryMaskImage255 mb (m 1),
          binaryMaskImage255 mb (m 2), binaryMaskImage255 mb (m 3),
          binaryMaskImage255 mb (m 4)],
         fps) := by
  have hff : (canonicalFrameDir f).filter (fun p => isFrameFileName p.1)
      = canonicalFrameDir f := rfl
  have hmf : (canonicalMaskDir m).filter (fun p => isMaskFileName p.1)
      = canonicalMaskDir m := rfl
  have hfnames : (canonicalFrameDir f).map Prod.fst
      = ["frame_0.png", "frame_1.png", "frame_2.png", "frame_3.png", "frame_4.png"] := rfl
  have hmnames : (canonicalMaskDir m).map Prod.fst
      = ["seg_mask_0.png", "seg_mask_1.png", "seg_mask_2.png", "seg_mask_3.png",
         "seg_mask_4.png"] := rfl
  have hfpw : (canonicalFrameDir f).Pairwise (fun p q => sort_key p.1 ≤ sort_key q.1) := by
    apply List.pairwise_map.mp
    have he : (canonicalFrameDir f).map (fun b => sort_key b.1) = [0, 1, 2, 3, 4] := rfl
    rw [he]
    decide
  have hmpw : (canonicalMaskDir m).Pairwise (fun p q => sort_key p.1 ≤ sort_key q.1) := by
    apply List.pairwise_map.mp
    have he : (canonicalMaskDir m).map (fun b => sort_key b.1) = [0, 1, 2, 3, 4] := rfl
    rw [he]
    decide
  have hfkeys : ((canonicalFrameDir f).map (fun p => sort_key p.1)).Nodup := by
    have he : (canonicalFrameDir f).map (fun p => sort_key p.1) = [0, 1, 2, 3, 4] := rfl
    rw [he]
    decide
  have hmkeys : ((canonicalMaskDir m).map (fun p => sort_key p.1)).Nodup := by
    have he : (canonicalMaskDir m).map (fun p => sort_key p.1) = [0, 1, 2, 3, 4] := rfl
    rw [he]
    decide
  have hfs : sortedByKey (fun p => sort_key p.1) (fl.filter (fun p => isFrameFileName p.1))
      = canonicalFrameDir f := by
    have h1 := List.Perm.filter (fun p => isFrameFileName p.1) hf
    rw [hff] at h1
    exact eq_of_perm_of_pairwiseKey (fun p => sort_key p.1) _ _
      ((sortedByKey_perm _ _).trans h1) (sortedByKey_pairwise _ _) hfpw hfkeys
  have hms : sortedByKey (fun p => sort_key p.1) (ml.filter (fun p => isMaskFileName p.1))
      = canonicalMaskDir m := by
    have h1 := List.Perm.filter (fun p => isMaskFileName p.1) hm
    rw [hmf] at h1
    exact eq_of_perm_of_pairwiseKey (fun p => sort_key p.1) _ _
      ((sortedByKey_perm _ _).trans h1) (sortedByKey_pairwise _ _) hmpw hmkeys
  simp only [read_video_with_mask_from_frame, hfs, hms]
  rfl

/-- C7 witness: a shuffled listing of the five frame files and mask files
still produces the suffix-aligned clip. -/
theorem loader_pairs_by_numeric_suffix_witness :
    read_video_with_mask_from_frame
      [("frame_3.png", cFrame 3), ("frame_0.png", cFrame 0), ("frame_4.png", cFrame 4),
       ("frame_1.png", cFrame 1), ("frame_2.png", cFrame 2)]
      [("seg_mask_2.png", cMask 2), ("seg_mask_4.png", cMask 4), ("seg_mask_0.png", cMask 0),
       ("seg_mask_3.png", cMask 3), ("seg_mask_1.png", cMask 1)] 0 (-1) false 8
      = ([cFrame 0, cFrame 1, cFrame 2, cFrame 3, cFrame 4],
         [maskedFrame255 (cFrame 0) (cMask 0), maskedFrame255 (cFrame 1) (cMask 1),
          maskedFrame255 (cFrame 2) (cMask 2), maskedFrame255 (cFrame 3) (cMask 3),
          maskedFrame255 (cFrame 4) (cMask 4)],
         [binaryMaskImage255 false (cMask 0), binaryMaskImage255 false (cMask 1),
          binaryMaskImage255 false (cMask 2), binaryMaskImage255 false (cMask 3),
          binaryMaskImage255 false (cMask 4)],
         8) :=
  loader_pairs_by_numeric_suffix (fun i => cFrame i.val) (fun i => cMask i.val)
    _ _ (by decide) (by decide) 0 (-1) false 8

theorem pyGet_cons_zero (a : α) (l : List α) : pyGet (a :: l) 0 = .ok a := by
  simp [pyGet]

theorem pySet_cons_zero (a x : α) (l : List α) : pySet (a :: l) 0 x = .ok (x :: l) := by
  simp [pySet]

/-- Index 0 survives resampling and truncation: an element found at the head
of a resampled sequence is the head of the source sequence. -/
theorem head?_of_resampled {α : Type} {l r : List α} {fr s : Nat} {lv : Bool}
    (hs : 1 ≤ s)
    (hr : r = if lv then takeEvery s l else (takeEvery s l).take fr)
    {a : α} (h0 : r[0]? = some a) : l[0]? = some a := by
  subst hr
  cases lv with
  | true =>
    simp only [eq_self_iff_true, if_true] at h0
    rw [takeEvery_getElem? s hs l 0] at h0
    simpa using h0
  | false =>
    simp only [Bool.false_eq_true, if_false] at h0
    rw [List.getElem?_take] at h0
    by_cases hfr : 0 < fr
    · rw [if_pos hfr] at h0
      rw [takeEvery_getElem? s hs l 0] at h0
      simpa using h0
    · rw [if_neg hfr] at h0
      exact absurd h0 (by simp)

/-- C4: with `first_frame_gt = True` and `mask_background = False` (and the
image-inpainting model configured, without which the run cannot complete —
see C10), the binary mask handed to the generative model has an all-zero
frame at index 0, and after the generative call index 0 of both the mask
sequence and the frame sequence used for the output video are restored to
their pre-policy ground-truth values. -/
theorem first_frame_gt_zero_mask_and_restored
    (video0 masked0 binary0 : List Frame) (ii : Frame)
    (frames dsf fps : Nat) (lv : Bool) (pipeOut : List Frame) (r : I2VResult)
    (hok : generateVideoI2V video0 masked0 binary0 (some ii) frames dsf fps lv
             true false pipeOut = .ok r) :
    r.modelMasks[0]? = (binary0[0]?).map zerosLike ∧
    r.masksOut[0]? = binary0[0]? ∧
    r.videoOut[0]? = video0[0]? := by
  cases video0 with
  | nil => exact absurd hok (by simp [generateVideoI2V, imgInpaintStage, pyGet, bind, Except.bind])
  | cons v0 vt =>
  cases masked0 with
  | nil => exact absurd hok (by simp [generateVideoI2V, imgInpaintStage, pyGet, pySet, bind, Except.bind])
  | cons m0 mt =>
  have himg : imgInpaintStage (v0 :: vt) (m0 :: mt) (some ii)
      = .ok (ii :: vt, ii :: mt, some v0) := by
    simp [imgInpaintStage, pyGet_cons_zero, pySet_cons_zero, bind, Except.bind]
  cases hres : resampleStage (ii :: vt) (ii :: mt) binary0 fps dsf frames lv with
  | error e =>
    exact absurd hok (by simp [generateVideoI2V, himg, hres, bind, Except.bind])
  | ok trip =>
  obtain ⟨v2, m2, b2⟩ := trip
  cases b2 with
  | nil =>
    exact absurd hok (by simp [generateVideoI2V, himg, hres, firstFramePolicyStage,
      pyGet, bind, Except.bind])
  | cons b20 b2t =>
  have hpol : firstFramePolicyStage (b20 :: b2t) true false
      = .ok (zerosLike b20 :: b2t, some b20) := by
    simp [firstFramePolicyStage, pyGet_cons_zero, pySet_cons_zero, bind, Except.bind]
  cases m2 with
  | nil =>
    exact absurd hok (by simp [generateVideoI2V, himg, hres, hpol, pyGet, bind, Except.bind])
  | cons m20 m2t =>
  cases v2 with
  | nil =>
    exact absurd hok (by simp [generateVideoI2V, himg, hres, hpol, restoreStage,
      localVar, pyGet, pySet, bind, Except.bind])
  | cons v20 v2t =>
  have hrest : restoreStage (v20 :: v2t) (zerosLike b20 :: b2t) (some b20) (some v0)
      = .ok (v0 :: v2t, b20 :: b2t) := by
    simp [restoreStage, localVar, pyGet_cons_zero, pySet_cons_zero, bind, Except.bind]
  have hget2 : pyGet (m20 :: m2t) 0 = .ok m20 := pyGet_cons_zero m20 m2t
  simp only [generateVideoI2V, himg, hres, hpol, hget2, hrest, bind, Except.bind,
    Except.ok.injEq] at hok
  subst hok
  obtain ⟨hs, _, _, hb, _⟩ := resampleStage_ok_inv hres
  have hb0 : binary0[0]? = some b20 := head?_of_resampled hs hb (by simp)
  refine ⟨?_, ?_, ?_⟩
  · simp [hb0]
  · simp [hb0]
  · simp

/-- C4 witness: a concrete completing run with `first_frame_gt`,
`mask_background = False` and a configured image-inpainting substitute. -/
theorem first_frame_gt_zero_mask_and_restored_witness :
    (I2VResult.modelMasks ⟨cFrame 7, [cFrame 7], [zerosLike (cFrame 255)], [cFrame 5],
        [cFrame 1], [cFrame 255], [cFrame 1], [cFrame 255]⟩)[0]?
      = (([cFrame 255] : List Frame)[0]?).map zerosLike ∧
    (I2VResult.masksOut ⟨cFrame 7, [cFrame 7], [zerosLike (cFrame 255)], [cFrame 5],
        [cFrame 1], [cFrame 255], [cFrame 1], [cFrame 255]⟩)[0]?
      = ([cFrame 255] : List Frame)[0]? ∧
    (I2VResult.videoOut ⟨cFrame 7, [cFrame 7], [zerosLike (cFrame 255)], [cFrame 5],
        [cFrame 1], [cFrame 255], [cFrame 1], [cFrame 255]⟩)[0]?
      = ([cFrame 1] : List Frame)[0]? :=
  first_frame_gt_zero_mask_and_restored [cFrame 1] [cFrame 2] [cFrame 255] (cFrame 7)
    1 8 8 false [cFrame 5] _ (by rfl)

/-- C10: in the `i2v_inpainting` path the post-generation restore reads
`gt_mask_first_frame` and `gt_video_first_frame` unconditionally, but they
are bound only under `first_frame_gt` and only when an image-inpainting model
is configured, respectively; so every run that reaches the generative call
with `first_frame_gt` false, or with no image-inpainting model, ends in a
`NameError` instead of completing and producing the comparison video. -/
theorem post_generation_restore_name_error
    (video0 masked0 binary0 : List Frame) (imgInp : Option Frame)
    (frames dsf fps : Nat) (lv ffg mb : Bool) (pipeOut : List Frame)
    (v1 m1 : List Frame) (g1 : Option Frame) (v2 m2 b2 : List Frame)
    (b3 : List Frame) (g3 : Option Frame) (img : Frame)
    (hflag : ffg = false ∨ imgInp = none)
    (h1 : imgInpaintStage video0 masked0 imgInp = .ok (v1, m1, g1))
    (h2 : resampleStage v1 m1 binary0 fps dsf frames lv = .ok (v2, m2, b2))
    (h3 : firstFramePolicyStage b2 ffg mb = .ok (b3, g3))
    (h4 : pyGet m2 0 = .ok img) :
    generateVideoI2V video0 masked0 binary0 imgInp frames dsf fps lv ffg mb pipeOut
      = .error (.nameError
          (if ffg then "gt_video_first_frame" else "gt_mask_first_frame")) := by
  simp only [generateVideoI2V, h1, h2, h3, h4, bind, Except.bind]
  cases hffg : ffg with
  | false =>
    subst hffg
    obtain ⟨hb3, hg3⟩ := (firstFramePolicyStage_ok_inv h3).2.1 rfl
    subst hg3
    simp [restoreStage, localVar, bind, Except.bind]
  | true =>
    subst hffg
    have himg : imgInp = none := by
      rcases hflag with h | h
      · exact absurd h (by simp)
      · exact h
    subst himg
    have hg1 : g1 = none := by
      simp only [imgInpaintStage, Except.ok.injEq, Prod.mk.injEq] at h1
      exact h1.2.2.symm
    subst hg1
    obtain ⟨b0, hb20, hg3, hb3⟩ := (firstFramePolicyStage_ok_inv h3).2.2 rfl
    subst hg3
    have hlen : 0 < b2.length := by
      cases b2 with
      | nil => exact absurd hb20 (by simp)
      | cons x xs => simp
    subst hb3
    simp only [restoreStage, localVar, bind, Except.bind, pySet, List.length_set]
    rw [if_pos hlen]
    rfl

/-- C10 witness: a concrete run with `first_frame_gt` false that reaches the
generative call and then fails with `NameError: gt_mask_first_frame`. -/
theorem post_generation_restore_name_error_witness :
    generateVideoI2V [cFrame 1] [cFrame 2] [cFrame 255] none 1 8 8 false false false
        [cFrame 5]
      = .error (.nameError "gt_mask_first_frame") :=
  post_generation_restore_name_error [cFrame 1] [cFrame 2] [cFrame 255] none 1 8 8
    false false false [cFrame 5] [cFrame 1] [cFrame 2] none
    [cFrame 1] [cFrame 2] [cFrame 255] [cFrame 255] none (cFrame 2)
    (Or.inl rfl) (by rfl) (by rfl) (by rfl) (by rfl)

end Inpaint
